import Mathlib

/-!
Verification development for the packing-list chat application.

The embedding models the request-lifecycle controller of the app
(`generatePackingList` / `handleSubmit` in the updated `App.tsx`,
kept in the repository alongside an earlier revision), together with
the pieces of JavaScript semantics it relies on:

* `parseJson` models `JSON.parse` (returning `none` where `JSON.parse`
  throws a `SyntaxError`);
* `stripFence` models the response-cleaning step
  `text.replace(/```json\n?|\n?```/g, '').trim()`;
* `AppState` / `handleSubmit` model the React component state and the
  submit handler, with the outcome of the single outbound generation
  call supplied as an explicit parameter and the number of outbound
  calls issued reported alongside the final state.
-/

namespace Chatbot

/-- JavaScript JSON values as produced by `JSON.parse`.  Numbers are kept
as their source lexeme (no claim depends on numeric value), strings are
kept decoded, and objects keep their fields in insertion order. -/
inductive Json where
  | null : Json
  | bool (b : Bool) : Json
  | num (lexeme : String) : Json
  | str (s : String) : Json
  | arr (elems : List Json) : Json
  | obj (fields : List (String × Json)) : Json
deriving Repr

/-- JSON insignificant whitespace (`space`, `tab`, `newline`, `carriage return`),
exactly the set skipped by `JSON.parse`. -/
def isJsonWs (c : Char) : Bool :=
  c == ' ' || c == '\t' || c == '\n' || c == '\r'

/-- Skip leading JSON whitespace. -/
def skipWs : List Char → List Char
  | [] => []
  | c :: cs => if isJsonWs c then skipWs cs else c :: cs

/-- Value of a hexadecimal digit, used for `\uXXXX` escapes; code points
48-57 are `0`-`9`, 97-102 are `a`-`f`, 65-70 are `A`-`F`. -/
def hexDigitVal (c : Char) : Option Nat :=
  let n := c.toNat
  if 48 ≤ n ∧ n ≤ 57 then some (n - 48)
  else if 97 ≤ n ∧ n ≤ 102 then some (n - 87)
  else if 65 ≤ n ∧ n ≤ 70 then some (n - 55)
  else none

/-- Body of a JSON string literal, after the opening quote.  `acc` holds the
decoded characters in reverse.  Raw control characters are rejected and the
escapes are exactly those of the JSON grammar.  The fuel is decremented once
per consumed character, so any fuel at least the input length suffices. -/
def parseStringBody : Nat → List Char → List Char → Option (String × List Char)
  | 0, _, _ => none
  | _ + 1, [], _ => none
  | f + 1, c :: cs, acc =>
    if c == '"' then some (String.mk acc.reverse, cs)
    else if c == '\\' then
      match cs with
      | [] => none
      | e :: cs' =>
        if e == '"' then parseStringBody f cs' ('"' :: acc)
        else if e == '\\' then parseStringBody f cs' ('\\' :: acc)
        else if e == '/' then parseStringBody f cs' ('/' :: acc)
        else if e == 'b' then parseStringBody f cs' (Char.ofNat 8 :: acc)
        else if e == 'f' then parseStringBody f cs' (Char.ofNat 12 :: acc)
        else if e == 'n' then parseStringBody f cs' ('\n' :: acc)
        else if e == 'r' then parseStringBody f cs' ('\r' :: acc)
        else if e == 't' then parseStringBody f cs' ('\t' :: acc)
        else if e == 'u' then
          match cs' with
          | h1 :: h2 :: h3 :: h4 :: cs'' =>
            match hexDigitVal h1, hexDigitVal h2, hexDigitVal h3, hexDigitVal h4 with
            | some a, some b, some c3, some d =>
              parseStringBody f cs''
                (Char.ofNat (((a * 16 + b) * 16 + c3) * 16 + d) :: acc)
            | _, _, _, _ => none
          | _ => none
        else none
    else if c.toNat < 32 then none
    else parseStringBody f cs (c :: acc)

/-- Exponent part of a JSON number token, after the `e`/`E` marker. -/
def numExpTail (sign mantissa : List Char) (e : Char) (l : List Char) :
    Option (String × List Char) :=
  let (expSign, r) :=
    match l with
    | '+' :: r => (['+'], r)
    | '-' :: r => (['-'], r)
    | _ => (([] : List Char), l)
  let (ds, r') := r.span Char.isDigit
  if ds.isEmpty then none
  else some (String.mk (sign ++ mantissa ++ e :: expSign ++ ds), r')

/-- Optional exponent of a JSON number token. -/
def numExp (sign mantissa : List Char) (l : List Char) :
    Option (String × List Char) :=
  match l with
  | 'e' :: r => numExpTail sign mantissa 'e' r
  | 'E' :: r => numExpTail sign mantissa 'E' r
  | _ => some (String.mk (sign ++ mantissa), l)

/-- Optional fraction of a JSON number token, then the optional exponent. -/
def numFrac (sign intPart : List Char) (l : List Char) :
    Option (String × List Char) :=
  match l with
  | '.' :: r =>
    let (ds, r') := r.span Char.isDigit
    if ds.isEmpty then none
    else numExp sign (intPart ++ '.' :: ds) r'
  | _ => numExp sign intPart l

/-- JSON number token: `-? (0 | [1-9][0-9]*) (. [0-9]+)? ([eE][+-]? [0-9]+)?`.
Returns the lexeme and the remaining input. -/
def parseNumber (l : List Char) : Option (String × List Char) :=
  let (sign, l1) :=
    match l with
    | '-' :: r => (['-'], r)
    | _ => (([] : List Char), l)
  match l1 with
  | [] => none
  | c :: r =>
    if c == '0' then numFrac sign ['0'] r
    else if c.isDigit then
      let (ds, r') := r.span Char.isDigit
      numFrac sign (c :: ds) r'
    else none

mutual

/-- JSON value parser (input begins at a non-whitespace character); returns
the value and the remaining input.  The fuel bounds the number of recursive
calls; every call chain consumes input, so a fuel of a few multiples of the
input length can never run out. -/
def parseValue : Nat → List Char → Option (Json × List Char)
  | 0, _ => none
  | f + 1, l =>
    match l with
    | 'n' :: 'u' :: 'l' :: 'l' :: rest => some (.null, rest)
    | 't' :: 'r' :: 'u' :: 'e' :: rest => some (.bool true, rest)
    | 'f' :: 'a' :: 'l' :: 's' :: 'e' :: rest => some (.bool false, rest)
    | '"' :: rest =>
      match parseStringBody f rest [] with
      | some (s, rest') => some (.str s, rest')
      | none => none
    | '[' :: rest =>
      match skipWs rest with
      | ']' :: rest2 => some (.arr [], rest2)
      | r => parseElems f r []
    | '{' :: rest =>
      match skipWs rest with
      | '}' :: rest2 => some (.obj [], rest2)
      | r => parseMembers f r []
    | _ =>
      match parseNumber l with
      | some (lex, rest) => some (.num lex, rest)
      | none => none

/-- Array elements after `[` (first element) or after a `,`; `acc` holds the
parsed elements in reverse. -/
def parseElems : Nat → List Char → List Json → Option (Json × List Char)
  | 0, _, _ => none
  | f + 1, l, acc =>
    match parseValue f l with
    | none => none
    | some (v, rest) =>
      match skipWs rest with
      | ',' :: rest2 => parseElems f (skipWs rest2) (v :: acc)
      | ']' :: rest2 => some (.arr (v :: acc).reverse, rest2)
      | _ => none

/-- Object members after `{` (first member) or after a `,`; `acc` holds the
parsed fields in reverse. -/
def parseMembers : Nat → List Char → List (String × Json) →
    Option (Json × List Char)
  | 0, _, _ => none
  | f + 1, l, acc =>
    match l with
    | '"' :: rest =>
      match parseStringBody f rest [] with
      | none => none
      | some (key, rest1) =>
        match skipWs rest1 with
        | ':' :: rest2 =>
          match parseValue f (skipWs rest2) with
          | none => none
          | some (v, rest3) =>
            match skipWs rest3 with
            | ',' :: rest4 => parseMembers f (skipWs rest4) ((key, v) :: acc)
            | '}' :: rest4 => some (.obj ((key, v) :: acc).reverse, rest4)
            | _ => none
        | _ => none
    | _ => none

end

/-- Model of `JSON.parse`: `some` value on success, `none` where `JSON.parse`
throws.  Leading and trailing whitespace is permitted; any other trailing
input is an error. -/
def parseJson (s : String) : Option Json :=
  match parseValue (8 * s.data.length + 16) (skipWs s.data) with
  | some (j, rest) => if (skipWs rest).isEmpty then some j else none
  | none => none

/-! Section: Response cleaning: `text.replace(/```json\n?|\n?```/g, '').trim()` -/

/-- The eight characters matched by the first regex alternative with its
optional newline taken. -/
def fenceJsonNl : List Char := ['`', '`', '`', 'j', 's', 'o', 'n', '\n']

/-- The first regex alternative without the optional newline. -/
def fenceJson : List Char := ['`', '`', '`', 'j', 's', 'o', 'n']

/-- The second regex alternative with its optional newline taken. -/
def nlFence : List Char := ['\n', '`', '`', '`']

/-- The second regex alternative without the optional newline. -/
def fence : List Char := ['`', '`', '`']

/-- One left-to-right pass of `replace(/```json\n?|\n?```/g, '')`: at each
position the first alternative (with greedy optional `\n`) is tried before
the second, a match is deleted and scanning resumes after it, and otherwise
one character is kept.  The fuel is spent once per step and every step
consumes at least one character, so fuel equal to the input length suffices. -/
def stripLoop : Nat → List Char → List Char
  | 0, l => l
  | _ + 1, [] => []
  | f + 1, c :: cs =>
    if fenceJsonNl.isPrefixOf (c :: cs) then stripLoop f ((c :: cs).drop 8)
    else if fenceJson.isPrefixOf (c :: cs) then stripLoop f ((c :: cs).drop 7)
    else if nlFence.isPrefixOf (c :: cs) then stripLoop f ((c :: cs).drop 4)
    else if fence.isPrefixOf (c :: cs) then stripLoop f ((c :: cs).drop 3)
    else c :: stripLoop f cs

/-- Whitespace removed by JavaScript `String.prototype.trim` (restricted to
the ASCII range, which is all the claims exercise). -/
def isJsWs (c : Char) : Bool :=
  c == ' ' || c == '\t' || c == '\n' || c == '\r' ||
    c == Char.ofNat 11 || c == Char.ofNat 12

/-- Model of `String.prototype.trim` on character lists. -/
def trimChars (l : List Char) : List Char :=
  ((l.dropWhile isJsWs).reverse.dropWhile isJsWs).reverse

/-- The controller's response-cleaning step:
`text.replace(/```json\n?|\n?```/g, '').trim()`. -/
def stripFence (s : String) : String :=
  ⟨trimChars (stripLoop s.data.length s.data)⟩

/-- A response wrapped in a ```` ```json ```` code fence, the shape the
spec's round-trip property quantifies over. -/
def wrapFence (payload : String) : String :=
  "```json\n" ++ payload ++ "\n```"

/-! Section: Data model (`types.ts`) and the result renderer's view of it -/

/-- Message roles (`'user' | 'assistant'`). -/
inductive Role where
  | user : Role
  | assistant : Role
deriving DecidableEq, Repr

/-- A transcript entry (`Message` in `types.ts`). -/
structure Message where
  role : Role
  content : String
deriving DecidableEq, Repr

/-- A packing-list category (`{ name: string; items: string[] }`). -/
structure Category where
  name : String
  items : List String
deriving DecidableEq, Repr

/-- The declared `PackingList` shape (`{ categories: Category[] }`). -/
structure PackingList where
  categories : List Category
deriving DecidableEq, Repr

/-- JavaScript property lookup on a parsed object: the last binding of a
key wins, a missing key is `undefined` (`none`). -/
def lookupField (fields : List (String × Json)) (key : String) : Option Json :=
  fields.foldl (fun acc p => if p.1 == key then some p.2 else acc) none

/-- Read a parsed JSON value as a list of strings. -/
def asStringList : Json → Option (List String)
  | .arr es => es.mapM fun j => match j with | .str s => some s | _ => none
  | _ => none

/-- Read a parsed JSON value as one `Category` of the declared shape. -/
def asCategory (j : Json) : Option Category :=
  match j with
  | .obj fs =>
    match lookupField fs "name", lookupField fs "items" with
    | some (.str n), some items => (asStringList items).map (⟨n, ·⟩)
    | _, _ => none
  | _ => none

/-- Interpretation of a parsed JSON value at the declared `PackingList`
type, i.e. the shape `PackingListDisplay` consumes (`list.categories.map`
over objects with a `name` string and an `items` string array).  The
controller itself performs no such validation; this definition exists to
state that fact. -/
def asPackingList (j : Json) : Option PackingList :=
  match j with
  | .obj fs =>
    match lookupField fs "categories" with
    | some (.arr cs) => (cs.mapM asCategory).map PackingList.mk
    | _ => none
  | _ => none

/-! Section: The request-lifecycle controller -/

/-- The React component state owned by the controller: the transcript,
the text input, the pending flag, the stored packing list (the raw parsed
JSON value — the code stores `JSON.parse`'s result unvalidated), and the
configuration-invalid gate (`apiKeyError`). -/
structure AppState where
  messages : List Message
  input : String
  isLoading : Bool
  packingList : Option Json
  apiKeyError : Bool

/-- Outcome of the single outbound generation call:
`ok text` models `response.text()` returning `text`; `thrown isError m`
models the call throwing, where `isError` says whether the thrown value
is an `Error` (`error instanceof Error`) and `m` is its `message`. -/
inductive CallOutcome where
  | ok (text : String) : CallOutcome
  | thrown (isError : Bool) (message : String) : CallOutcome

/-- Result of running a submission to completion: the final component
state and the number of outbound generation calls issued. -/
structure StepResult where
  state : AppState
  calls : Nat

/-- Fixed assistant message of the missing-configuration branch. -/
def noKeyMsg : String :=
  "Error: Gemini API key is not configured. Please add your API key to the .env file."

/-- Fixed assistant message of the success branch. -/
def successMsg : String :=
  "I\x27ve generated a packing list based on your trip details. You can find it below!"

/-- Fixed assistant message of the JSON-parse-failure branch. -/
def invalidFormatMsg : String :=
  "Sorry, I received an invalid response format. Please try again."

/-- Fixed assistant message for authentication-class call failures. -/
def invalidKeyMsg : String :=
  "Error: Invalid API key. Please check your Gemini API key configuration."

/-- Fixed assistant message for rate-limit-class call failures. -/
def rateLimitMsg : String :=
  "Rate limit exceeded. Please try again in a few moments."

/-- Fixed assistant message for other `Error` call failures. -/
def genericErrorMsg : String :=
  "I\x27m sorry, I encountered an error while generating your packing list. Please try again."

/-- Fixed assistant message when the thrown value is not an `Error`. -/
def unexpectedErrorMsg : String :=
  "An unexpected error occurred"

/-- Does `pat` occur as a contiguous run inside `l`? -/
def listHasRun (pat : List Char) : List Char → Bool
  | [] => pat.isEmpty
  | c :: cs => pat.isPrefixOf (c :: cs) || listHasRun pat cs

/-- JavaScript `String.prototype.includes`. -/
def containsSub (s pat : String) : Bool :=
  listHasRun pat.data s.data

/-- Truthiness test `!API_KEY` on the module-level credential: the key is
falsy when the environment variable is absent or the empty string. -/
def keyFalsy : Option String → Bool
  | none => true
  | some s => s.isEmpty

/-- The controller's `generatePackingList`, run from the submission to its
completion.  The branches mirror the source: the missing-key early return;
otherwise the call (one outbound request), with `setIsLoading(true)` /
`setApiKeyError(false)` at the start of the `try`, the clean-and-parse of a
successful response (inner `try`/`catch`), the classified message of the
outer `catch` (which also sets the gate), and the `finally` that clears the
pending flag; every non-early-return branch ends with `setInput('')`. -/
def generatePackingList (apiKey : Option String) (outcome : CallOutcome)
    (s : AppState) : StepResult :=
  if keyFalsy apiKey then
    ⟨{ s with
        apiKeyError := true,
        messages := s.messages ++ [⟨.user, s.input⟩, ⟨.assistant, noKeyMsg⟩],
        input := "" }, 0⟩
  else
    match outcome with
    | .ok text =>
      match parseJson (stripFence text) with
      | some parsedList =>
        ⟨{ s with
            isLoading := false,
            apiKeyError := false,
            packingList := some parsedList,
            messages := s.messages ++ [⟨.user, s.input⟩, ⟨.assistant, successMsg⟩],
            input := "" }, 1⟩
      | none =>
        ⟨{ s with
            isLoading := false,
            apiKeyError := false,
            messages := s.messages ++ [⟨.user, s.input⟩, ⟨.assistant, invalidFormatMsg⟩],
            input := "" }, 1⟩
    | .thrown isError msg =>
      let errorMessage :=
        if isError then
          if containsSub msg "API_KEY_INVALID" then invalidKeyMsg
          else if containsSub msg "RATE_LIMIT_EXCEEDED" then rateLimitMsg
          else genericErrorMsg
        else unexpectedErrorMsg
      ⟨{ s with
          isLoading := false,
          apiKeyError := true,
          messages := s.messages ++ [⟨.user, s.input⟩, ⟨.assistant, errorMessage⟩],
          input := "" }, 1⟩

/-- The guard `!input.trim()` of `handleSubmit`: blank means empty after
JavaScript trimming. -/
def isBlank (s : String) : Bool :=
  (trimChars s.data).isEmpty

/-- The form's submit handler: `if (!input.trim() || isLoading) return;`
then `generatePackingList()`. -/
def handleSubmit (apiKey : Option String) (outcome : CallOutcome)
    (s : AppState) : StepResult :=
  if isBlank s.input || s.isLoading then ⟨s, 0⟩
  else generatePackingList apiKey outcome s

/-! Section: Sanity evaluations of the embedded semantics -/

example : parseJson "42" = some (.num "42") := rfl
example : parseJson "[]" = some (.arr []) := rfl
example : parseJson " null " = some .null := rfl
example : parseJson "oops" = none := rfl
example : parseJson "\x7b\"a\": [1, true], \"b\": \"x\\n\"\x7d" =
    some (.obj [("a", .arr [.num "1", .bool true]), ("b", .str "x\n")]) := rfl
example : parseJson "0123" = none := rfl
example : parseJson "-1.5e+3" = some (.num "-1.5e+3") := rfl
example : parseJson "\x7b\x7d" = some (.obj []) := rfl
example : stripFence (wrapFence "\x7b\"a\":1\x7d") = "\x7b\"a\":1\x7d" := rfl
example : stripFence "  hi\n" = "hi" := rfl
example : stripFence "a```b" = "ab" := rfl
example : stripFence "`\n`````" = "```" := rfl
example : stripFence "```" = "" := rfl

/-! Section: Lemmas about the fence-stripping pass -/

theorem stripLoop_nil (f : Nat) : stripLoop f [] = [] := by
  cases f <;> rfl

theorem stripLoop_cons_eq (f : Nat) (c : Char) (cs : List Char) :
    stripLoop (f + 1) (c :: cs) =
      if fenceJsonNl.isPrefixOf (c :: cs) then stripLoop f ((c :: cs).drop 8)
      else if fenceJson.isPrefixOf (c :: cs) then stripLoop f ((c :: cs).drop 7)
      else if nlFence.isPrefixOf (c :: cs) then stripLoop f ((c :: cs).drop 4)
      else if fence.isPrefixOf (c :: cs) then stripLoop f ((c :: cs).drop 3)
      else c :: stripLoop f cs := rfl

theorem isPrefixOf_eq_true_iff {l₁ l₂ : List Char} :
    l₁.isPrefixOf l₂ = true ↔ l₁ <+: l₂ := List.isPrefixOf_iff_prefix

theorem within_of_start {l₁ l₂ : List Char} (h : l₁ <+: l₂) : l₁ <:+: l₂ := by
  obtain ⟨t, ht⟩ := h
  exact ⟨[], t, ht⟩

theorem within_of_end {l₁ l₂ : List Char} (h : l₁ <:+ l₂) : l₁ <:+: l₂ := by
  obtain ⟨t, ht⟩ := h
  refine ⟨t, [], ?_⟩
  rw [List.append_nil]
  exact ht

theorem fence_not_infix_tail {c : Char} {cs : List Char}
    (h : ¬ fence <:+: c :: cs) : ¬ fence <:+: cs := by
  intro hf
  obtain ⟨u, v, huv⟩ := hf
  exact h ⟨c :: u, v, by rw [← huv]; simp⟩

theorem isPrefixOf_false_of_no_fence {p l : List Char}
    (hp : fence <+: p) (h : ¬ fence <+: l) : p.isPrefixOf l = false := by
  by_contra hx
  have hb : p <+: l := isPrefixOf_eq_true_iff.mp (by simpa using hx)
  exact h (hp.trans hb)

theorem nlFence_isPrefixOf_false {c : Char} {cs : List Char}
    (h : ¬ fence <+: cs) : nlFence.isPrefixOf (c :: cs) = false := by
  by_contra hx
  have hb : nlFence <+: c :: cs := isPrefixOf_eq_true_iff.mp (by simpa using hx)
  have : fence <+: cs := (List.cons_prefix_cons.mp hb).2
  exact h this

theorem stripLoop_cons_of_no_fence {f : Nat} {c : Char} {cs : List Char}
    (h1 : ¬ fence <+: c :: cs) (h2 : ¬ fence <+: cs) :
    stripLoop (f + 1) (c :: cs) = c :: stripLoop f cs := by
  have e1 : fenceJsonNl.isPrefixOf (c :: cs) = false :=
    isPrefixOf_false_of_no_fence (by decide) h1
  have e2 : fenceJson.isPrefixOf (c :: cs) = false :=
    isPrefixOf_false_of_no_fence (by decide) h1
  have e3 : nlFence.isPrefixOf (c :: cs) = false := nlFence_isPrefixOf_false h2
  have e4 : fence.isPrefixOf (c :: cs) = false :=
    isPrefixOf_false_of_no_fence (by decide) h1
  simp [stripLoop, e1, e2, e3, e4]

theorem stripLoop_eq_self : ∀ (f : Nat) (l : List Char),
    ¬ fence <:+: l → stripLoop f l = l := by
  intro f
  induction f with
  | zero => intro l _; rfl
  | succ f ih =>
    intro l hl
    match l with
    | [] => rfl
    | c :: cs =>
      have h1 : ¬ fence <+: c :: cs := fun hp => hl (within_of_start hp)
      have htl : ¬ fence <:+: cs := fence_not_infix_tail hl
      have h2 : ¬ fence <+: cs := fun hp => htl (within_of_start hp)
      rw [stripLoop_cons_of_no_fence h1 h2, ih cs htl]

theorem fence_not_prefix_append_nlFence :
    ∀ (P : List Char), ¬ fence <:+: P → ¬ fence <+: (P ++ nlFence) := by
  intro P hP hpre
  match P with
  | [] => exact absurd hpre (by decide)
  | [a] =>
    have h := (List.cons_prefix_cons.mp hpre).2
    exact absurd h (by decide)
  | [a, b] =>
    have h := (List.cons_prefix_cons.mp (List.cons_prefix_cons.mp hpre).2).2
    exact absurd h (by decide)
  | a :: b :: c :: t =>
    obtain ⟨ha, h1⟩ := List.cons_prefix_cons.mp hpre
    obtain ⟨hb, h2⟩ := List.cons_prefix_cons.mp h1
    obtain ⟨hc, _⟩ := List.cons_prefix_cons.mp h2
    subst ha hb hc
    exact hP (within_of_start ⟨t, rfl⟩)

theorem stripLoop_append_nlFence :
    ∀ (f : Nat) (P : List Char), P.length + 1 ≤ f → ¬ fence <:+: P →
      stripLoop f (P ++ nlFence) = P := by
  intro f
  induction f with
  | zero => intro P h _; omega
  | succ f ih =>
    intro P hlen hP
    match P with
    | [] =>
      have e1 : fenceJsonNl.isPrefixOf nlFence = false := by decide
      have e2 : fenceJson.isPrefixOf nlFence = false := by decide
      have e3 : nlFence.isPrefixOf nlFence = true := by decide
      simp [stripLoop, nlFence, e1, e2, e3, stripLoop_nil]
    | c :: rest =>
      have hrest : ¬ fence <:+: rest := fence_not_infix_tail hP
      have h1 : ¬ fence <+: (c :: rest) ++ nlFence :=
        fence_not_prefix_append_nlFence (c :: rest) hP
      have h2 : ¬ fence <+: rest ++ nlFence :=
        fence_not_prefix_append_nlFence rest hrest
      have step : stripLoop (f + 1) ((c :: rest) ++ nlFence)
          = c :: stripLoop f (rest ++ nlFence) :=
        stripLoop_cons_of_no_fence h1 h2
      have ihr : stripLoop f (rest ++ nlFence) = rest := by
        apply ih rest _ hrest
        simpa using Nat.le_of_succ_le_succ hlen
      calc stripLoop (f + 1) ((c :: rest) ++ nlFence)
          = c :: stripLoop f (rest ++ nlFence) := step
        _ = c :: rest := by rw [ihr]

/-! Section: Lemmas about trimming -/

theorem dropWhile_idem (p : Char → Bool) (l : List Char) :
    (l.dropWhile p).dropWhile p = l.dropWhile p := by
  induction l with
  | nil => rfl
  | cons a t ih => by_cases h : p a <;> simp [List.dropWhile_cons, h, ih]

theorem dropWhile_stable_of_start {p : Char → Bool} {k m : List Char}
    (hk : k <+: m) (hm : m.dropWhile p = m) : k.dropWhile p = k := by
  match k, hk with
  | [], _ => rfl
  | a :: k', ⟨t, ht⟩ =>
    rw [← ht] at hm
    by_cases h : p a
    · exfalso
      rw [List.cons_append, List.dropWhile_cons, if_pos h] at hm
      have hlen := congrArg List.length hm
      have hsf : List.dropWhile p (k' ++ t) <:+ k' ++ t := List.dropWhile_suffix p
      have hle := hsf.sublist.length_le
      rw [List.length_cons] at hlen
      omega
    · simp [List.dropWhile_cons, h]

theorem reverse_dropWhile_starts (f : List Char) :
    ((f.reverse.dropWhile isJsWs)).reverse <+: f := by
  rw [← List.reverse_suffix]
  have h : List.dropWhile isJsWs f.reverse <:+ f.reverse :=
    List.dropWhile_suffix isJsWs
  simpa using h

theorem trimChars_starts_dropWhile (l : List Char) :
    trimChars l <+: l.dropWhile isJsWs :=
  reverse_dropWhile_starts (l.dropWhile isJsWs)

theorem trimChars_within (l : List Char) : trimChars l <:+: l := by
  have h1 := within_of_start (trimChars_starts_dropWhile l)
  have hsf : List.dropWhile isJsWs l <:+ l := List.dropWhile_suffix isJsWs
  have h2 := within_of_end hsf
  exact h1.trans h2

theorem trimChars_eq_self {x : List Char} (h1 : x.dropWhile isJsWs = x)
    (h2 : x.reverse.dropWhile isJsWs = x.reverse) : trimChars x = x := by
  unfold trimChars
  rw [h1, h2, List.reverse_reverse]

theorem trimChars_idem (l : List Char) : trimChars (trimChars l) = trimChars l := by
  apply trimChars_eq_self
  · exact dropWhile_stable_of_start (trimChars_starts_dropWhile l)
      (dropWhile_idem isJsWs l)
  · have hrev : (trimChars l).reverse
        = (l.dropWhile isJsWs).reverse.dropWhile isJsWs := by
      simp [trimChars]
    rw [hrev]
    exact dropWhile_idem _ _

/-! Section: The fence-stripping pass on well-behaved payloads -/

theorem stripFence_eq_trim {P : String} (h : ¬ fence <:+: P.data) :
    stripFence P = ⟨trimChars P.data⟩ := by
  show (⟨trimChars (stripLoop P.data.length P.data)⟩ : String) = _
  rw [stripLoop_eq_self _ _ h]

theorem stripFence_wrapFence {P : String} (h : ¬ fence <:+: P.data) :
    stripFence (wrapFence P) = ⟨trimChars P.data⟩ := by
  have hdata : (wrapFence P).data = fenceJsonNl ++ (P.data ++ nlFence) := by
    show ("```json\n" ++ P ++ "\n```").data = _
    rw [String.data_append, String.data_append, List.append_assoc]
    rfl
  show (⟨trimChars (stripLoop (wrapFence P).data.length (wrapFence P).data)⟩ :
      String) = _
  rw [hdata]
  have hlen : (fenceJsonNl ++ (P.data ++ nlFence)).length
      = P.data.length + 11 + 1 := by
    simp [fenceJsonNl, nlFence]
  rw [hlen]
  have hstep : stripLoop (P.data.length + 11 + 1)
      (fenceJsonNl ++ (P.data ++ nlFence))
      = stripLoop (P.data.length + 11) (P.data ++ nlFence) := by
    have e : fenceJsonNl ++ (P.data ++ nlFence)
        = '`' :: ('`' :: '`' :: 'j' :: 's' :: 'o' :: 'n' :: '\n' ::
            (P.data ++ nlFence)) := rfl
    have hpre : fenceJsonNl.isPrefixOf ('`' :: '`' :: '`' :: 'j' :: 's' :: 'o' ::
        'n' :: '\n' :: (P.data ++ nlFence)) = true := by
      rw [isPrefixOf_eq_true_iff]
      exact ⟨P.data ++ nlFence, rfl⟩
    rw [e, stripLoop_cons_eq, if_pos hpre]
    rfl
  rw [hstep, stripLoop_append_nlFence _ _ (by omega) h]

theorem trimChars_no_fence {P : List Char} (h : ¬ fence <:+: P) :
    ¬ fence <:+: trimChars P :=
  fun hf => h (hf.trans (trimChars_within P))

/-- C2 as written is false on the code: the cleaning pass
`replace(/```json\n?|\n?```/g, '').trim()` deletes fence-marker runs that
occur inside the payload itself, and deleting a match can join characters
into a new match that a second pass removes, so the pass is neither
payload-preserving nor idempotent on arbitrary strings. -/
theorem c2_counterexample :
    stripFence "a```b" ≠ "a```b" ∧
    stripFence (stripFence "`\n`````") ≠ stripFence "`\n`````" := by
  exact ⟨by decide, by decide⟩

/-- C2 (amended): for every payload string containing no triple-backtick
run, the wrapped response ```` ```json payload ``` ```` cleans to exactly
the same string as the unwrapped payload — namely the payload trimmed of
surrounding whitespace — hence both parse to the same value, and on such
payloads the cleaning pass is idempotent. -/
theorem c2_fence_round_trip (P : String) (h : ¬ fence <:+: P.data) :
    stripFence (wrapFence P) = stripFence P ∧
    parseJson (stripFence (wrapFence P)) = parseJson (stripFence P) ∧
    stripFence P = ⟨trimChars P.data⟩ ∧
    stripFence (stripFence P) = stripFence P := by
  have he : stripFence P = ⟨trimChars P.data⟩ := stripFence_eq_trim h
  have hw : stripFence (wrapFence P) = stripFence P := by
    rw [he, stripFence_wrapFence h]
  refine ⟨hw, by rw [hw], he, ?_⟩
  have hdata : (stripFence P).data = trimChars P.data := by rw [he]
  have hnf : ¬ fence <:+: (stripFence P).data := by
    rw [hdata]; exact trimChars_no_fence h
  rw [stripFence_eq_trim hnf, hdata, trimChars_idem, ← he]

/-- Witness for the amended C2 at a concrete fence-free JSON payload. -/
theorem c2_fence_round_trip_witness :
    (¬ fence <:+: ("  \x7b\"a\":1\x7d " : String).data) ∧
    (stripFence (wrapFence "  \x7b\"a\":1\x7d ") = stripFence "  \x7b\"a\":1\x7d " ∧
      parseJson (stripFence (wrapFence "  \x7b\"a\":1\x7d ")) =
        parseJson (stripFence "  \x7b\"a\":1\x7d ") ∧
      stripFence "  \x7b\"a\":1\x7d " = ⟨trimChars ("  \x7b\"a\":1\x7d " : String).data⟩ ∧
      stripFence (stripFence "  \x7b\"a\":1\x7d ") = stripFence "  \x7b\"a\":1\x7d ") :=
  ⟨by decide, c2_fence_round_trip "  \x7b\"a\":1\x7d " (by decide)⟩

/-! Section: Controller lemmas -/

theorem handleSubmit_run {k : Option String} {o : CallOutcome} {s : AppState}
    (hb : isBlank s.input = false) (hl : s.isLoading = false) :
    handleSubmit k o s = generatePackingList k o s := by
  unfold handleSubmit
  rw [hb, hl]
  simp

theorem generatePackingList_calls {k : Option String} {o : CallOutcome}
    {s : AppState} (hk : keyFalsy k = false) :
    (generatePackingList k o s).calls = 1 := by
  cases o with
  | ok text =>
    cases hp : parseJson (stripFence text) <;>
      simp [generatePackingList, hk, hp]
  | thrown e m => simp [generatePackingList, hk]

/-! Section: Claim C1 -/

/-- C1: when the generation call succeeds but the cleaned response text does
not parse as JSON, the submission appends the user message (raw input) and
the fixed invalid-response-format assistant message, leaves the stored
packing list unchanged, clears the input, ends non-pending, and ends with
the configuration-invalid gate unset (the gate was optimistically cleared
at the start of the attempt and the parse-failure branch never sets it). -/
theorem c1_malformed_response (s : AppState) (k : Option String) (text : String)
    (hk : keyFalsy k = false) (hb : isBlank s.input = false)
    (hl : s.isLoading = false)
    (hp : parseJson (stripFence text) = none) :
    handleSubmit k (.ok text) s =
      ⟨{ s with
          messages := s.messages ++
            [⟨.user, s.input⟩, ⟨.assistant, invalidFormatMsg⟩],
          input := "", isLoading := false, apiKeyError := false }, 1⟩ := by
  rw [handleSubmit_run hb hl]
  simp [generatePackingList, hk, hp]

/-- Witness for C1: a seeded packing list survives a malformed response. -/
theorem c1_malformed_response_witness :
    parseJson (stripFence "oops") = none ∧
    handleSubmit (some "key") (.ok "oops")
        ⟨[⟨.user, "hi"⟩], "beach trip", false, some (.obj []), false⟩ =
      ⟨⟨[⟨.user, "hi"⟩, ⟨.user, "beach trip"⟩, ⟨.assistant, invalidFormatMsg⟩],
        "", false, some (.obj []), false⟩, 1⟩ :=
  ⟨rfl, c1_malformed_response _ _ _ rfl rfl rfl rfl⟩

/-! Section: Claim C3 -/

/-- C3 is false as stated: after an authentication-class failure the gate is
set, yet a second submission (credential still configured) does not
short-circuit — it issues a new outbound call (`calls = 1`, not `0`) and
does not append the configuration-error message pair. -/
theorem c3_counterexample :
    ((handleSubmit (some "key") (.thrown true "API_KEY_INVALID")
        ⟨[], "beach trip", false, none, false⟩).state.apiKeyError = true) ∧
    (handleSubmit (some "key") (.ok "\x7b\x7d")
        { (handleSubmit (some "key") (.thrown true "API_KEY_INVALID")
            ⟨[], "beach trip", false, none, false⟩).state
          with input := "city trip" }).calls = 1 ∧
    ¬ ((handleSubmit (some "key") (.ok "\x7b\x7d")
        { (handleSubmit (some "key") (.thrown true "API_KEY_INVALID")
            ⟨[], "beach trip", false, none, false⟩).state
          with input := "city trip" }).state.messages.getLast? =
        some ⟨.assistant, noKeyMsg⟩) := by
  refine ⟨rfl, rfl, ?_⟩
  decide

/-- C3 (amended): an authentication-class call failure does set the
configuration-invalid gate, but the gate does not short-circuit later
submissions: as long as the credential is configured, a subsequent
non-blank, non-pending submission — even from a state with the gate set —
issues exactly one new outbound call (the gate is optimistically reset at
the start of that attempt); the configuration-error path is taken only
when the credential is absent. -/
theorem c3_gate_not_consulted (s s' : AppState) (k : Option String) (m : String)
    (o : CallOutcome)
    (hk : keyFalsy k = false) (hb : isBlank s.input = false)
    (hl : s.isLoading = false)
    (_hm : containsSub m "API_KEY_INVALID" = true)
    (_hg : s'.apiKeyError = true) (hb' : isBlank s'.input = false)
    (hl' : s'.isLoading = false) :
    (handleSubmit k (.thrown true m) s).state.apiKeyError = true ∧
    (handleSubmit k o s').calls = 1 := by
  constructor
  · rw [handleSubmit_run hb hl]
    simp [generatePackingList, hk]
  · rw [handleSubmit_run hb' hl']
    exact generatePackingList_calls hk

/-- Witness for the amended C3. -/
theorem c3_gate_not_consulted_witness :
    (handleSubmit (some "key") (.thrown true "API_KEY_INVALID")
        ⟨[], "beach trip", false, none, false⟩).state.apiKeyError = true ∧
    (handleSubmit (some "key") (.ok "\x7b\x7d")
        ⟨[], "city trip", false, none, true⟩).calls = 1 :=
  c3_gate_not_consulted ⟨[], "beach trip", false, none, false⟩
    ⟨[], "city trip", false, none, true⟩ (some "key") "API_KEY_INVALID"
    (.ok "\x7b\x7d") rfl rfl rfl rfl rfl rfl rfl

/-! Section: Claim C4 -/

/-- C4: submission with blank (empty or whitespace-only) input, or while a
request is pending, is a silent no-op — the state is returned unchanged and
no outbound call is issued; in particular a second submission while
`isLoading` holds can never start a second request. -/
theorem c4_silent_noop (s : AppState) (k : Option String) (o : CallOutcome)
    (h : isBlank s.input = true ∨ s.isLoading = true) :
    handleSubmit k o s = ⟨s, 0⟩ := by
  unfold handleSubmit
  rcases h with h | h <;> simp [h]

/-- Witness for C4, at a whitespace-only input and at a pending state. -/
theorem c4_silent_noop_witness :
    handleSubmit (some "key") (.ok "\x7b\x7d")
        ⟨[], "   ", false, none, false⟩ =
      ⟨⟨[], "   ", false, none, false⟩, 0⟩ ∧
    handleSubmit (some "key") (.ok "\x7b\x7d")
        ⟨[], "trip", true, none, false⟩ =
      ⟨⟨[], "trip", true, none, false⟩, 0⟩ :=
  ⟨c4_silent_noop _ _ _ (Or.inl rfl), c4_silent_noop _ _ _ (Or.inr rfl)⟩

/-! Section: Claim C5 -/

/-- C5: with no (or an empty) credential configured, submitting non-blank
text appends exactly the user message (raw input) and the fixed
configuration-error assistant message, issues zero outbound calls, sets the
configuration-invalid gate, and clears the input; everything else
(packing list, pending flag) is untouched. -/
theorem c5_no_credential (s : AppState) (k : Option String) (o : CallOutcome)
    (hk : keyFalsy k = true) (hb : isBlank s.input = false)
    (hl : s.isLoading = false) :
    handleSubmit k o s =
      ⟨{ s with
          apiKeyError := true,
          messages := s.messages ++ [⟨.user, s.input⟩, ⟨.assistant, noKeyMsg⟩],
          input := "" }, 0⟩ := by
  rw [handleSubmit_run hb hl]
  simp [generatePackingList, hk]

/-- Witness for C5. -/
theorem c5_no_credential_witness :
    handleSubmit none (.ok "\x7b\x7d") ⟨[], "a trip to Goa", false, none, false⟩ =
      ⟨⟨[⟨.user, "a trip to Goa"⟩, ⟨.assistant, noKeyMsg⟩],
        "", false, none, true⟩, 0⟩ :=
  c5_no_credential _ none _ rfl rfl rfl

/-! Section: Claim C6 -/

/-- C6: with a configured credential, a successful call whose cleaned text
parses as JSON replaces the stored packing list wholesale with exactly the
parsed value and appends exactly the user echo and the fixed success
assistant message. -/
theorem c6_success (s : AppState) (k : Option String) (text : String) (j : Json)
    (hk : keyFalsy k = false) (hb : isBlank s.input = false)
    (hl : s.isLoading = false)
    (hp : parseJson (stripFence text) = some j) :
    handleSubmit k (.ok text) s =
      ⟨{ s with
          packingList := some j,
          messages := s.messages ++ [⟨.user, s.input⟩, ⟨.assistant, successMsg⟩],
          input := "", isLoading := false, apiKeyError := false }, 1⟩ := by
  rw [handleSubmit_run hb hl]
  simp [generatePackingList, hk, hp]

/-- Witness for C6, on the spec's example payload; the last conjunct checks
the stored value reads back as exactly the declared structure with category
and item order preserved. -/
theorem c6_success_witness :
    parseJson (stripFence
        "\x7b\"categories\":[\x7b\"name\":\"Clothing\",\"items\":[\"Shirt\",\"Pants\"]\x7d]\x7d") =
      some (.obj [("categories", .arr [.obj [("name", .str "Clothing"),
        ("items", .arr [.str "Shirt", .str "Pants"])]])]) ∧
    handleSubmit (some "key")
        (.ok "\x7b\"categories\":[\x7b\"name\":\"Clothing\",\"items\":[\"Shirt\",\"Pants\"]\x7d]\x7d")
        ⟨[], "trip", false, none, false⟩ =
      ⟨⟨[⟨.user, "trip"⟩, ⟨.assistant, successMsg⟩], "", false,
        some (.obj [("categories", .arr [.obj [("name", .str "Clothing"),
          ("items", .arr [.str "Shirt", .str "Pants"])]])]), false⟩, 1⟩ ∧
    asPackingList (.obj [("categories", .arr [.obj [("name", .str "Clothing"),
        ("items", .arr [.str "Shirt", .str "Pants"])]])]) =
      some ⟨[⟨"Clothing", ["Shirt", "Pants"]⟩]⟩ :=
  ⟨rfl, c6_success _ _ _ _ rfl rfl rfl rfl, rfl⟩

/-! Section: Claim C7 -/

/-- C7 is false as stated: a call failure whose thrown value is not an
`Error` object appends the separate fixed message
`"An unexpected error occurred"`, which is none of the three classified
messages the claim enumerates (the gate is still set). -/
theorem c7_counterexample :
    (handleSubmit (some "key") (.thrown false "socket hang up")
        ⟨[], "trip", false, none, false⟩).state.messages =
      [⟨.user, "trip"⟩, ⟨.assistant, unexpectedErrorMsg⟩] ∧
    unexpectedErrorMsg ≠ invalidKeyMsg ∧
    unexpectedErrorMsg ≠ rateLimitMsg ∧
    unexpectedErrorMsg ≠ genericErrorMsg := by
  refine ⟨rfl, by decide, by decide, by decide⟩

/-- C7 (amended): on any call failure the submission appends the user
message and one assistant error message — the invalid-key message when the
thrown `Error`'s message contains `API_KEY_INVALID`, else the rate-limit
message when it contains `RATE_LIMIT_EXCEEDED`, else the generic retry
message for other `Error`s, and the fixed "An unexpected error occurred"
text when the thrown value is not an `Error` — and sets the
configuration-invalid gate in every failure class, leaving the stored
packing list untouched. -/
theorem c7_call_failure (s : AppState) (k : Option String) (e : Bool)
    (m : String)
    (hk : keyFalsy k = false) (hb : isBlank s.input = false)
    (hl : s.isLoading = false) :
    handleSubmit k (.thrown e m) s =
      ⟨{ s with
          messages := s.messages ++ [⟨.user, s.input⟩,
            ⟨.assistant,
              if e then
                if containsSub m "API_KEY_INVALID" then invalidKeyMsg
                else if containsSub m "RATE_LIMIT_EXCEEDED" then rateLimitMsg
                else genericErrorMsg
              else unexpectedErrorMsg⟩],
          input := "", isLoading := false, apiKeyError := true }, 1⟩ := by
  rw [handleSubmit_run hb hl]
  simp [generatePackingList, hk]

/-- Witness for the amended C7, on a rate-limit-class failure. -/
theorem c7_call_failure_witness :
    containsSub "429 RATE_LIMIT_EXCEEDED" "RATE_LIMIT_EXCEEDED" = true ∧
    handleSubmit (some "key") (.thrown true "429 RATE_LIMIT_EXCEEDED")
        ⟨[], "trip", false, none, false⟩ =
      ⟨⟨[⟨.user, "trip"⟩, ⟨.assistant, rateLimitMsg⟩],
        "", false, none, true⟩, 1⟩ :=
  ⟨rfl, c7_call_failure _ _ _ _ rfl rfl rfl⟩

/-! Section: Claim C8 -/

/-- C8: every non-no-op submission, whatever its outcome (missing
configuration, success, parse failure, or call failure), ends with the
input cleared and the pending flag back to false. -/
theorem c8_cleanup (s : AppState) (k : Option String) (o : CallOutcome)
    (hb : isBlank s.input = false) (hl : s.isLoading = false) :
    (handleSubmit k o s).state.input = "" ∧
    (handleSubmit k o s).state.isLoading = false := by
  rw [handleSubmit_run hb hl]
  cases hk : keyFalsy k
  · cases o with
    | ok text =>
      cases hp : parseJson (stripFence text) <;>
        simp [generatePackingList, hk, hp]
    | thrown e m => simp [generatePackingList, hk]
  · simp [generatePackingList, hk, hl]

/-- Witness for C8, on a call-failure outcome. -/
theorem c8_cleanup_witness :
    (handleSubmit (some "key") (.thrown true "boom")
        ⟨[], "trip", false, none, false⟩).state.input = "" ∧
    (handleSubmit (some "key") (.thrown true "boom")
        ⟨[], "trip", false, none, false⟩).state.isLoading = false :=
  c8_cleanup ⟨[], "trip", false, none, false⟩ (some "key")
    (.thrown true "boom") rfl rfl

/-! Section: Claim C9 -/

/-- C9: the transcript is append-only — every submission leaves the
existing messages as an unchanged prefix, and anything appended is exactly
one user message followed by one assistant message. -/
theorem c9_append_only (s : AppState) (k : Option String) (o : CallOutcome) :
    ∃ t, (handleSubmit k o s).state.messages = s.messages ++ t ∧
      (t = [] ∨ ∃ u a, t = [⟨.user, u⟩, ⟨.assistant, a⟩]) := by
  unfold handleSubmit
  by_cases hg : (isBlank s.input || s.isLoading) = true
  · exact ⟨[], by simp [hg], Or.inl rfl⟩
  · rw [if_neg (by simp [hg])]
    cases hk : keyFalsy k
    · cases o with
      | ok text =>
        cases hp : parseJson (stripFence text) with
        | none =>
          exact ⟨[⟨.user, s.input⟩, ⟨.assistant, invalidFormatMsg⟩],
            by simp [generatePackingList, hk, hp], Or.inr ⟨_, _, rfl⟩⟩
        | some j =>
          exact ⟨[⟨.user, s.input⟩, ⟨.assistant, successMsg⟩],
            by simp [generatePackingList, hk, hp], Or.inr ⟨_, _, rfl⟩⟩
      | thrown e m =>
        exact ⟨[⟨.user, s.input⟩, ⟨.assistant,
            if e then
              if containsSub m "API_KEY_INVALID" then invalidKeyMsg
              else if containsSub m "RATE_LIMIT_EXCEEDED" then rateLimitMsg
              else genericErrorMsg
            else unexpectedErrorMsg⟩],
          by simp [generatePackingList, hk], Or.inr ⟨_, _, rfl⟩⟩
    · exact ⟨[⟨.user, s.input⟩, ⟨.assistant, noKeyMsg⟩],
        by simp [generatePackingList, hk], Or.inr ⟨_, _, rfl⟩⟩

/-! Section: Claim C10 -/

/-- C10: the parsed response is never validated against the declared
`PackingList` shape — `"42"`, `"[]"` and an object without a `categories`
field each parse successfully and are stored wholesale as the packing
list, although none of them reads back as the structure the result
renderer consumes (`asPackingList` is `none`, so the renderer's
unconditional `list.categories.map` has nothing well-typed to act on). -/
theorem c10_no_shape_validation :
    parseJson (stripFence "42") = some (.num "42") ∧
    (handleSubmit (some "key") (.ok "42")
        ⟨[], "trip", false, none, false⟩).state.packingList =
      some (.num "42") ∧
    asPackingList (.num "42") = none ∧
    parseJson (stripFence "[]") = some (.arr []) ∧
    (handleSubmit (some "key") (.ok "[]")
        ⟨[], "trip", false, none, false⟩).state.packingList =
      some (.arr []) ∧
    asPackingList (.arr []) = none ∧
    parseJson (stripFence "\x7b\"items\":[]\x7d") =
      some (.obj [("items", .arr [])]) ∧
    asPackingList (.obj [("items", .arr [])]) = none :=
  ⟨rfl, rfl, rfl, rfl, rfl, rfl, rfl, rfl⟩

end Chatbot
